import Mathlib

/-!
Verification development for the furniture CRUD backend (src/main.py).

The Python handlers are shallowly embedded as pure Lean functions:
  * a stored document is an association list of field name to BSON-like value
    (Python dicts have unique keys; where a proof needs that invariant it is
    an explicit hypothesis);
  * the MongoDB collection is the list of its documents, in store order;
  * raising an exception inside a handler's `try` block is the `Except.error`
    branch of the `..._try` function, and the surrounding
    `except Exception as e: raise HTTPException(500, str(e))` is the wrapper
    that turns any error into an HTTP 500 response carrying `str(e)`;
  * the database module (`create_document`, `get_documents`, `db`) is not
    under src/; its operations are modelled from the spec, see the
    `Modelled from the spec:` doc comments.
Numbers are modelled as `Rat` (floats) and `Int` (ints); no claim does
floating-point arithmetic.  String lowering is ASCII (`Char.toLower`),
matching Python `str.lower` on the ASCII inputs the claims use.
-/

/-- A BSON-like value stored in a document field. -/
inductive Value where
  /-- a string -/
  | str (s : String)
  /-- a float (Python `float`, modelled as a rational) -/
  | num (q : Rat)
  /-- an integer -/
  | int (n : Int)
  /-- a boolean -/
  | bool (b : Bool)
  /-- Python `None` / BSON null -/
  | null
  /-- a BSON ObjectId, kept as its 24-char lowercase hex form -/
  | oid (s : String)
  /-- a datetime (the instant is abstract, only identity matters) -/
  | time (t : Nat)
deriving DecidableEq, Repr

/-- A document: association list of field name to value (a Python dict). -/
abbrev Doc := List (String × Value)

/-- The furniture collection: its documents in store order. -/
abbrev Store := List Doc

/-- Dict read: value of the first entry with key `k`, if any. -/
def lookupVal : Doc → String → Option Value
  | [], _ => none
  | (k0, v) :: rest, k => if k0 = k then some v else lookupVal rest k

/-- Dict write `d[k] = v`: replace the entry for `k` in place, else append. -/
def setField : Doc → String → Value → Doc
  | [], k, v => [(k, v)]
  | (k0, v0) :: rest, k, v =>
      if k0 = k then (k, v) :: rest else (k0, v0) :: setField rest k v

/-- Dict removal `d.pop(k)`: drop the entry for `k` (the first, which for a
dict is the only one). -/
def popKey : Doc → String → Doc
  | [], _ => []
  | (k0, v) :: rest, k => if k0 = k then rest else (k0, v) :: popKey rest k

/-- MongoDB `$set`: apply each pair of the change-set to the document. -/
def applySet (d : Doc) (u : List (String × Value)) : Doc :=
  u.foldl (fun d kv => setField d kv.1 kv.2) d

/-- Exact-match filter semantics: every filter key is present with exactly
the filter's value. -/
def docMatches (filter : List (String × Value)) (d : Doc) : Bool :=
  filter.all fun kv => decide (lookupVal d kv.1 = some kv.2)

/-- Python `str.lower`, ASCII case (the inputs the claims use are ASCII). -/
def pyLower (s : String) : String :=
  ⟨s.data.map Char.toLower⟩

/-- `bson.ObjectId(s)` on a string argument: accepts exactly a 24-character
hex string, normalising to lowercase (`str(ObjectId(s)) = s.lower()`);
anything else raises `InvalidId`. -/
def parseObjectId (s : String) : Option String :=
  if s.length = 24 && s.toList.all (fun c => c.isDigit
      || ("abcdefABCDEF".toList.contains c)) then
    some (pyLower s)
  else
    none

/-- An exception escaping a handler's `try` body. -/
inductive Exc where
  /-- `fastapi.HTTPException(status_code, detail)` -/
  | http (status : Nat) (detail : String)
  /-- `bson.errors.InvalidId` raised by `ObjectId(s)` -/
  | invalidId (s : String)
deriving DecidableEq, Repr

/-- Python `str(e)`.  For `HTTPException`, Starlette defines
`__str__` as `"{status_code}: {detail}"`; for `InvalidId`, bson's message
(external library text, quoted here verbatim). -/
def Exc.toDetail : Exc → String
  | .http status detail => toString status ++ ": " ++ detail
  | .invalidId s =>
      "\x27" ++ s ++
        "\x27 is not a valid ObjectId, it must be a 12-byte input or a 24-character hex string"

/-- An HTTP response from a handler: a JSON-object body on success, or an
`HTTPException` escaping to the framework (status plus detail). -/
inductive Resp where
  | ok (body : List (String × Value))
  | error (status : Nat) (detail : String)
deriving DecidableEq, Repr

/-- The `FurnitureUpdate` request model (src/main.py lines 30-39): every
field optional, defaulting to `None`. -/
structure FurnitureUpdate where
  name : Option String := none
  description : Option String := none
  category : Option String := none
  material : Option String := none
  dimensions : Option String := none
  price : Option Rat := none
  stock : Option Int := none
  image_url : Option String := none
  is_featured : Option Bool := none
deriving DecidableEq, Repr

/-- `payload.model_dump()`: all nine fields in declaration order, absent
ones as `None`. -/
def FurnitureUpdate.model_dump (p : FurnitureUpdate) :
    List (String × Option Value) :=
  [("name", p.name.map Value.str),
   ("description", p.description.map Value.str),
   ("category", p.category.map Value.str),
   ("material", p.material.map Value.str),
   ("dimensions", p.dimensions.map Value.str),
   ("price", p.price.map Value.num),
   ("stock", p.stock.map Value.int),
   ("image_url", p.image_url.map Value.str),
   ("is_featured", p.is_featured.map Value.bool)]

/-- Line 129: `{k: v for k, v in payload.model_dump().items() if v is not None}`. -/
def updateDoc (p : FurnitureUpdate) : List (String × Value) :=
  p.model_dump.filterMap fun kv => kv.2.map fun v => (kv.1, v)

/-- Modelled from the spec: `db["furniture"].update_one(filter, {"$set": upd})`
through the repository's database module (not under src/): per §6,
"update-one(id-filter, change-set) → matched-count"; MongoDB applies the
change-set to the first matching document and reports how many matched. -/
def update_one : Store → List (String × Value) → List (String × Value) →
    Nat × Store
  | [], _, _ => (0, [])
  | d :: ds, filter, upd =>
      if docMatches filter d then (1, applySet d upd :: ds)
      else
        let r := update_one ds filter upd
        (r.1, d :: r.2)

/-- Modelled from the spec: `db["furniture"].delete_one(filter)` (database
module, not under src/): per §6, "delete-one(id-filter) → deleted-count";
MongoDB removes the first matching document. -/
def delete_one : Store → List (String × Value) → Nat × Store
  | [], _ => (0, [])
  | d :: ds, filter =>
      if docMatches filter d then (1, ds)
      else
        let r := delete_one ds filter
        (r.1, d :: r.2)

/-- The `try` body of `update_furniture` (src/main.py lines 128-136).
`now` is the value of `datetime.now(timezone.utc)` at line 132. -/
def update_furniture_try (store : Store) (item_id : String)
    (payload : FurnitureUpdate) (now : Nat) : Except Exc (Resp × Store) :=
  let update_doc := updateDoc payload
  if update_doc.isEmpty then
    .ok (Resp.ok [("updated", Value.bool false)], store)
  else
    let upd := update_doc ++ [("updated_at", Value.time now)]
    match parseObjectId item_id with
    | none => .error (.invalidId item_id)
    | some o =>
        let r := update_one store [("_id", Value.oid o)] upd
        if r.1 = 0 then .error (.http 404 "Item not found")
        else .ok (Resp.ok [("updated", Value.bool true)], r.2)

/-- `update_furniture` (src/main.py lines 125-138): any exception raised in
the `try` body — the `InvalidId` from `ObjectId(item_id)` and also the
handler's own `HTTPException(404)` — is caught by `except Exception as e`
and re-raised as `HTTPException(500, str(e))`.  The error branches do not
touch the store (`update_one` with zero matches writes nothing). -/
def update_furniture (store : Store) (item_id : String)
    (payload : FurnitureUpdate) (now : Nat) : Resp × Store :=
  match update_furniture_try store item_id payload now with
  | .ok r => r
  | .error e => (Resp.error 500 e.toDetail, store)

/-- The `try` body of `delete_furniture` (src/main.py lines 142-147). -/
def delete_furniture_try (store : Store) (item_id : String) :
    Except Exc (Resp × Store) :=
  match parseObjectId item_id with
  | none => .error (.invalidId item_id)
  | some o =>
      let r := delete_one store [("_id", Value.oid o)]
      if r.1 = 0 then .error (.http 404 "Item not found")
      else .ok (Resp.ok [("deleted", Value.bool true)], r.2)

/-- `delete_furniture` (src/main.py lines 140-149): as with update, the
broad `except Exception` converts any raised exception — including the
handler's own 404 — into `HTTPException(500, str(e))`. -/
def delete_furniture (store : Store) (item_id : String) : Resp × Store :=
  match delete_furniture_try store item_id with
  | .ok r => r
  | .error e => (Resp.error 500 e.toDetail, store)

/-- Is `needle` a contiguous substring of the character list (Python `in`)? -/
def listContainsSub (needle : List Char) : List Char → Bool
  | [] => needle.isEmpty
  | c :: rest => needle.isPrefixOf (c :: rest) || listContainsSub needle rest

/-- Python `needle in hay` on strings. -/
def strIn (needle hay : String) : Bool :=
  listContainsSub needle.toList hay.toList

/-- `d.get(k, "")`, with the `or ""` collapse of `None`: a missing field or
a null (or non-string, which schema-conformant documents never hold) reads
as the empty string. -/
def strOrEmpty (v : Option Value) : String :=
  match v with
  | some (Value.str s) => s
  | _ => ""

/-- The lowercased haystack of line 116:
`d.get("name", "").lower() + " " + (d.get("description", "") or "").lower()`. -/
def searchText (d : Doc) : String :=
  pyLower (strOrEmpty (lookupVal d "name")) ++ " " ++
    pyLower (strOrEmpty (lookupVal d "description"))

/-- Lines 114-116: `if q:` (truthiness — `None` and `""` skip the filter),
then keep the documents whose search text contains `q.lower()`. -/
def applyQ (q : Option String) (docs : List Doc) : List Doc :=
  match q with
  | some s =>
      if s ≠ "" then docs.filter fun d => strIn (pyLower s) (searchText d)
      else docs
  | none => docs

/-- Lines 107-111: the exact-match filter dict. `if category:` is Python
truthiness, so an empty string adds no key; `if featured is not None:` adds
the key for both `true` and `false`. -/
def filterDict (category : Option String) (featured : Option Bool) :
    List (String × Value) :=
  (match category with
   | some c => if c ≠ "" then [("category", Value.str c)] else []
   | none => []) ++
  (match featured with
   | some b => [("is_featured", Value.bool b)]
   | none => [])

/-- Modelled from the spec: `get_documents("furniture", filter_dict, limit)`
from the repository's database module (not under src/): per §4.2/§6, asks
the store for up to `limit` documents matching the exact-match filter, in
store order. -/
def get_documents (store : Store) (filter : List (String × Value))
    (limit : Nat) : List Doc :=
  (store.filter (docMatches filter)).take limit

/-- Lines 117-120: `if isinstance(d.get("_id"), ObjectId):
d["id"] = str(d.pop("_id"))` — pop `_id`, then dict-assign `id` to its
string form; documents whose `_id` is not an ObjectId pass unchanged. -/
def convertId (d : Doc) : Doc :=
  match lookupVal d "_id" with
  | some (Value.oid o) => setField (popKey d "_id") "id" (Value.str o)
  | _ => d

/-- `list_furniture` (src/main.py lines 103-123).  The `try` wrapper only
fires on store-client exceptions, which the pure store model cannot raise,
so the handler is the success pipeline: store query with the exact-match
filter, optional `q` post-filter, `_id` conversion. -/
def list_furniture (store : Store) (q category : Option String)
    (featured : Option Bool) (limit : Nat) : List Doc :=
  (applyQ q (get_documents store (filterDict category featured) limit)).map
    convertId

/-! ### Association-list lemmas -/

theorem lookupVal_setField_self (d : Doc) (k : String) (v : Value) :
    lookupVal (setField d k v) k = some v := by
  induction d with
  | nil => simp [setField, lookupVal]
  | cons kv rest ih =>
      obtain ⟨k0, v0⟩ := kv
      by_cases h : k0 = k
      · simp [setField, h, lookupVal]
      · simp [setField, h, lookupVal, ih]

theorem lookupVal_setField_ne (d : Doc) (k : String) (v : Value)
    (k' : String) (h : k' ≠ k) :
    lookupVal (setField d k v) k' = lookupVal d k' := by
  induction d with
  | nil => simp [setField, lookupVal, Ne.symm h]
  | cons kv rest ih =>
      obtain ⟨k0, v0⟩ := kv
      by_cases h0 : k0 = k
      · subst h0
        simp [setField, lookupVal, Ne.symm h]
      · simp [setField, h0, lookupVal, ih]

theorem lookupVal_popKey_ne (d : Doc) (k k' : String) (h : k' ≠ k) :
    lookupVal (popKey d k) k' = lookupVal d k' := by
  induction d with
  | nil => simp [popKey]
  | cons kv rest ih =>
      obtain ⟨k0, v0⟩ := kv
      by_cases h0 : k0 = k
      · subst h0
        simp [popKey, lookupVal, Ne.symm h]
      · simp [popKey, h0, lookupVal, ih]

theorem applySet_cons (d : Doc) (k : String) (v : Value)
    (u : List (String × Value)) :
    applySet d ((k, v) :: u) = applySet (setField d k v) u := rfl

theorem applySet_lookup_not_mem :
    ∀ (u : List (String × Value)) (d : Doc) (k : String),
      k ∉ u.map Prod.fst → lookupVal (applySet d u) k = lookupVal d k
  | [], _, _, _ => rfl
  | (k0, v0) :: u, d, k, h => by
      simp only [List.map_cons, List.mem_cons, not_or] at h
      rw [applySet_cons, applySet_lookup_not_mem u _ k h.2,
        lookupVal_setField_ne d k0 v0 k h.1]

theorem applySet_lookup_mem :
    ∀ (u : List (String × Value)) (d : Doc) (k : String) (v : Value),
      (k, v) ∈ u → (u.map Prod.fst).Nodup →
      lookupVal (applySet d u) k = some v
  | [], _, _, _, hm, _ => absurd hm (List.not_mem_nil _)
  | (k0, v0) :: u, d, k, v, hm, hnd => by
      simp only [List.map_cons, List.nodup_cons] at hnd
      rcases List.mem_cons.1 hm with heq | hmem
      · cases heq
        rw [applySet_cons, applySet_lookup_not_mem u _ _ hnd.1,
          lookupVal_setField_self]
      · rw [applySet_cons]
        exact applySet_lookup_mem u (setField d k0 v0) k v hmem hnd.2

theorem keys_setField_subset (d : Doc) (k : String) (v : Value) (k' : String)
    (hd : k' ∉ d.map Prod.fst) (hk : k' ≠ k) :
    k' ∉ (setField d k v).map Prod.fst := by
  induction d with
  | nil => simpa [setField] using hk
  | cons kv rest ih =>
      obtain ⟨k0, v0⟩ := kv
      simp only [List.map_cons, List.mem_cons, not_or] at hd
      by_cases h0 : k0 = k
      · simp [setField, h0, hk, hd.2]
      · simp [setField, h0, hd.1, ih hd.2]

theorem popKey_not_mem :
    ∀ (d : Doc) (k : String), (d.map Prod.fst).Nodup →
      k ∉ (popKey d k).map Prod.fst
  | [], k, _ => by simp [popKey]
  | (k0, v0) :: rest, k, hnd => by
      simp only [List.map_cons, List.nodup_cons] at hnd
      by_cases h0 : k0 = k
      · subst h0
        simpa [popKey] using hnd.1
      · simp only [popKey, if_neg h0, List.map_cons, List.mem_cons, not_or]
        exact ⟨fun hh => h0 hh.symm, popKey_not_mem rest k hnd.2⟩

theorem convertId_lookup_ne (d : Doc) (k : String)
    (h1 : k ≠ "_id") (h2 : k ≠ "id") :
    lookupVal (convertId d) k = lookupVal d k := by
  unfold convertId
  cases hv : lookupVal d "_id" with
  | none => rfl
  | some v =>
      cases v with
      | oid o =>
          rw [lookupVal_setField_ne _ _ _ _ h2, lookupVal_popKey_ne _ _ _ h1]
      | str s => rfl
      | num q => rfl
      | int n => rfl
      | bool b => rfl
      | null => rfl
      | time t => rfl

theorem keys_filterMap_sublist (l : List (String × Option Value)) :
    ((l.filterMap fun kv => kv.2.map fun v => (kv.1, v)).map Prod.fst).Sublist
      (l.map Prod.fst) := by
  induction l with
  | nil => simp
  | cons kv rest ih =>
      obtain ⟨k, ov⟩ := kv
      cases ov with
      | none => simpa [List.filterMap_cons] using ih.cons k
      | some v => simpa [List.filterMap_cons] using ih.cons₂ k

theorem updateDoc_keys_sublist (p : FurnitureUpdate) :
    ((updateDoc p).map Prod.fst).Sublist
      ["name", "description", "category", "material", "dimensions",
       "price", "stock", "image_url", "is_featured"] :=
  keys_filterMap_sublist p.model_dump

theorem updateDoc_keys_nodup (p : FurnitureUpdate) :
    ((updateDoc p).map Prod.fst).Nodup :=
  ((by decide :
    (["name", "description", "category", "material", "dimensions",
      "price", "stock", "image_url", "is_featured"] :
        List String).Nodup)).sublist (updateDoc_keys_sublist p)

theorem updated_at_not_mem_updateDoc (p : FurnitureUpdate) :
    "updated_at" ∉ (updateDoc p).map Prod.fst := by
  intro h
  have := (updateDoc_keys_sublist p).subset h
  simp at this

theorem docMatches_singleton (d : Doc) (k : String) (v : Value) :
    docMatches [(k, v)] d = decide (lookupVal d k = some v) := by
  simp [docMatches]

theorem update_one_append (filter upd : List (String × Value))
    (pre post : Store) (d : Doc)
    (hpre : ∀ d' ∈ pre, docMatches filter d' = false)
    (hd : docMatches filter d = true) :
    update_one (pre ++ d :: post) filter upd
      = (1, pre ++ applySet d upd :: post) := by
  induction pre with
  | nil => simp [update_one, hd]
  | cons p ps ih =>
      have hp : docMatches filter p = false := hpre p (List.mem_cons_self ..)
      have := ih fun d' hd' => hpre d' (List.mem_cons_of_mem p hd')
      simp [update_one, hp, this]

/-! ### Claim theorems -/

/-- C1: the claim (and spec) say Update/Delete on a nonexistent `item_id`
return HTTP 404 with detail "Item not found".  The code is a slip: the
handlers raise `HTTPException(404, "Item not found")` inside their own
`try`, and the broad `except Exception as e` catches it and re-raises
`HTTPException(500, str(e))`, so the client actually receives HTTP 500
with detail "404: Item not found".  This theorem evaluates both handlers
at a well-formed ObjectId matching no stored document. -/
theorem update_delete_missing_id_return_500 :
    update_furniture [] "0123456789abcdef01234567"
        ⟨none, none, none, none, none, some 2, none, none, none⟩ 0
      = (Resp.error 500 "404: Item not found", []) ∧
    delete_furniture [] "0123456789abcdef01234567"
      = (Resp.error 500 "404: Item not found", []) ∧
    Exc.toDetail (Exc.http 404 "Item not found") = "404: Item not found" :=
  ⟨rfl, rfl, rfl⟩

/-- C2: an update payload whose nine fields are all null/absent makes
`update_furniture` return `{updated: false}` with the store — hence every
document's `updated_at` — completely untouched (lines 129-131 short-circuit
before any store call). -/
theorem update_all_null_payload_no_write (store : Store) (item_id : String)
    (p : FurnitureUpdate) (now : Nat)
    (h : p.name = none ∧ p.description = none ∧ p.category = none ∧
      p.material = none ∧ p.dimensions = none ∧ p.price = none ∧
      p.stock = none ∧ p.image_url = none ∧ p.is_featured = none) :
    update_furniture store item_id p now
      = (Resp.ok [("updated", Value.bool false)], store) := by
  obtain ⟨h1, h2, h3, h4, h5, h6, h7, h8, h9⟩ := h
  cases p
  simp only at h1 h2 h3 h4 h5 h6 h7 h8 h9
  subst h1 h2 h3 h4 h5 h6 h7 h8 h9
  rfl

/-- Witness for C2 at the empty payload and a one-document store. -/
theorem update_all_null_payload_no_write_witness :
    update_furniture [[("_id", Value.oid "aabbccddeeff001122334455")]]
        "aabbccddeeff001122334455" ⟨none, none, none, none, none, none, none, none, none⟩ 0
      = (Resp.ok [("updated", Value.bool false)],
         [[("_id", Value.oid "aabbccddeeff001122334455")]]) :=
  update_all_null_payload_no_write _ _ _ _
    ⟨rfl, rfl, rfl, rfl, rfl, rfl, rfl, rfl, rfl⟩

/-- C9 counterexample: the claim says every malformed `item_id` makes the
Update handler fail with HTTP 500, but an all-null payload short-circuits
at line 130 *before* `ObjectId(item_id)` is ever evaluated, so Update
returns HTTP 200 `{updated: false}` even for an invalid identifier. -/
theorem update_invalid_id_empty_payload_is_ok :
    update_furniture [] "not-an-objectid"
        ⟨none, none, none, none, none, none, none, none, none⟩ 0
      = (Resp.ok [("updated", Value.bool false)], []) ∧
    parseObjectId "not-an-objectid" = none :=
  ⟨rfl, rfl⟩

/-- C9 (amended): for every `item_id` that is not a well-formed ObjectId
string, Delete — and Update whenever its change-set is non-empty — fails
with HTTP 500 carrying the `InvalidId` message (not 404), and the store is
left exactly as it was (the exception fires before any store operation). -/
theorem invalid_id_update_delete_500 (store : Store) (item_id : String)
    (p : FurnitureUpdate) (now : Nat)
    (hbad : parseObjectId item_id = none) (hne : updateDoc p ≠ []) :
    update_furniture store item_id p now
      = (Resp.error 500 (Exc.toDetail (Exc.invalidId item_id)), store) ∧
    delete_furniture store item_id
      = (Resp.error 500 (Exc.toDetail (Exc.invalidId item_id)), store) := by
  constructor
  · have hie : (updateDoc p).isEmpty = false := by
      cases hu : updateDoc p with
      | nil => exact absurd hu hne
      | cons a l => rfl
    simp [update_furniture, update_furniture_try, hie, hbad]
  · simp [delete_furniture, delete_furniture_try, hbad]

/-- Witness for the amended C9 at `item_id = "zzz"`. -/
theorem invalid_id_update_delete_500_witness :
    update_furniture [] "zzz"
        ⟨none, none, none, none, none, none, some 5, none, none⟩ 0
      = (Resp.error 500 (Exc.toDetail (Exc.invalidId "zzz")), []) ∧
    delete_furniture [] "zzz"
      = (Resp.error 500 (Exc.toDetail (Exc.invalidId "zzz")), []) :=
  invalid_id_update_delete_500 [] "zzz" _ 0 rfl (by decide)

/-- C10: a `category` query parameter equal to the empty string is falsy at
line 108, so no `category` key enters the filter and List behaves exactly
as if the parameter were absent. -/
theorem empty_category_same_as_absent (store : Store) (q : Option String)
    (featured : Option Bool) (limit : Nat) :
    filterDict (some "") featured = filterDict none featured ∧
    "category" ∉ (filterDict (some "") featured).map Prod.fst ∧
    list_furniture store q (some "") featured limit
      = list_furniture store q none featured limit := by
  have h : filterDict (some "") featured = filterDict none featured := by
    cases featured <;> rfl
  refine ⟨h, ?_, ?_⟩
  · cases featured <;> simp [filterDict]
  · simp [list_furniture, get_documents, h]

/-- C6: the store query is bounded by `limit` and the `q` post-filter can
only shrink its result, so List returns at most `limit` documents for
every combination of parameters. -/
theorem list_length_le_limit (store : Store) (q category : Option String)
    (featured : Option Bool) (limit : Nat) :
    (list_furniture store q category featured limit).length ≤ limit ∧
    ∀ docs : List Doc, (applyQ q docs).length ≤ docs.length := by
  have hq : ∀ docs : List Doc, (applyQ q docs).length ≤ docs.length := by
    intro docs
    cases q with
    | none => exact le_refl _
    | some s =>
        by_cases hs : s = ""
        · simp [applyQ, hs]
        · simpa [applyQ, hs] using List.length_filter_le _ docs
  refine ⟨?_, hq⟩
  calc (list_furniture store q category featured limit).length
      = (applyQ q (get_documents store (filterDict category featured)
          limit)).length := by simp [list_furniture]
    _ ≤ (get_documents store (filterDict category featured) limit).length :=
        hq _
    _ ≤ limit := by simp [get_documents]

/-- C3: for a payload with at least one non-null field, the change-set is
exactly the payload's non-null fields (first conjunct), and applying the
update to the document matched by `item_id` stamps `updated_at` with the
current time, writes exactly the change-set values, leaves every other
field — omitted or explicitly null — untouched, and returns
`{updated: true}`. -/
theorem update_nonempty_payload_applies (pre post : Store) (d : Doc)
    (item_id o : String) (p : FurnitureUpdate) (now : Nat)
    (hne : updateDoc p ≠ [])
    (ho : parseObjectId item_id = some o)
    (hpre : ∀ d' ∈ pre, lookupVal d' "_id" ≠ some (Value.oid o))
    (hd : lookupVal d "_id" = some (Value.oid o)) :
    (∀ k v, (k, v) ∈ updateDoc p ↔
      ((∃ s, p.name = some s ∧ k = "name" ∧ v = Value.str s) ∨
       (∃ s, p.description = some s ∧ k = "description" ∧ v = Value.str s) ∨
       (∃ s, p.category = some s ∧ k = "category" ∧ v = Value.str s) ∨
       (∃ s, p.material = some s ∧ k = "material" ∧ v = Value.str s) ∨
       (∃ s, p.dimensions = some s ∧ k = "dimensions" ∧ v = Value.str s) ∨
       (∃ x, p.price = some x ∧ k = "price" ∧ v = Value.num x) ∨
       (∃ x, p.stock = some x ∧ k = "stock" ∧ v = Value.int x) ∨
       (∃ s, p.image_url = some s ∧ k = "image_url" ∧ v = Value.str s) ∨
       (∃ x, p.is_featured = some x ∧ k = "is_featured" ∧ v = Value.bool x))) ∧
    (∃ d', update_furniture (pre ++ d :: post) item_id p now
        = (Resp.ok [("updated", Value.bool true)], pre ++ d' :: post) ∧
      lookupVal d' "updated_at" = some (Value.time now) ∧
      (∀ k v, (k, v) ∈ updateDoc p → lookupVal d' k = some v) ∧
      (∀ k, k ∉ (updateDoc p).map Prod.fst → k ≠ "updated_at" →
        lookupVal d' k = lookupVal d k)) := by
  constructor
  · intro k v
    constructor
    · intro h
      rw [updateDoc, List.mem_filterMap] at h
      obtain ⟨a, ha, hfa⟩ := h
      simp only [FurnitureUpdate.model_dump, List.mem_cons,
        List.not_mem_nil, or_false] at ha
      rcases ha with rfl | rfl | rfl | rfl | rfl | rfl | rfl | rfl | rfl <;>
        simp only [Option.map_eq_some'] at hfa <;>
        obtain ⟨b, ⟨x, hx, rfl⟩, heq⟩ := hfa <;>
        cases heq <;> simp [hx]
    · intro h
      rcases h with ⟨x, hx, rfl, rfl⟩ | ⟨x, hx, rfl, rfl⟩ |
        ⟨x, hx, rfl, rfl⟩ | ⟨x, hx, rfl, rfl⟩ | ⟨x, hx, rfl, rfl⟩ |
        ⟨x, hx, rfl, rfl⟩ | ⟨x, hx, rfl, rfl⟩ | ⟨x, hx, rfl, rfl⟩ |
        ⟨x, hx, rfl, rfl⟩
      · exact List.mem_filterMap.2 ⟨("name", p.name.map Value.str),
          by simp [FurnitureUpdate.model_dump], by simp [hx]⟩
      · exact List.mem_filterMap.2
          ⟨("description", p.description.map Value.str),
          by simp [FurnitureUpdate.model_dump], by simp [hx]⟩
      · exact List.mem_filterMap.2 ⟨("category", p.category.map Value.str),
          by simp [FurnitureUpdate.model_dump], by simp [hx]⟩
      · exact List.mem_filterMap.2 ⟨("material", p.material.map Value.str),
          by simp [FurnitureUpdate.model_dump], by simp [hx]⟩
      · exact List.mem_filterMap.2
          ⟨("dimensions", p.dimensions.map Value.str),
          by simp [FurnitureUpdate.model_dump], by simp [hx]⟩
      · exact List.mem_filterMap.2 ⟨("price", p.price.map Value.num),
          by simp [FurnitureUpdate.model_dump], by simp [hx]⟩
      · exact List.mem_filterMap.2 ⟨("stock", p.stock.map Value.int),
          by simp [FurnitureUpdate.model_dump], by simp [hx]⟩
      · exact List.mem_filterMap.2 ⟨("image_url", p.image_url.map Value.str),
          by simp [FurnitureUpdate.model_dump], by simp [hx]⟩
      · exact List.mem_filterMap.2
          ⟨("is_featured", p.is_featured.map Value.bool),
          by simp [FurnitureUpdate.model_dump], by simp [hx]⟩
  · have hie : (updateDoc p).isEmpty = false := by
      cases hu : updateDoc p with
      | nil => exact absurd hu hne
      | cons a l => rfl
    set u := updateDoc p ++ [("updated_at", Value.time now)] with hu_def
    have hnd : (u.map Prod.fst).Nodup := by
      rw [hu_def, List.map_append]
      refine List.Nodup.append (updateDoc_keys_nodup p) (by simp) ?_
      intro a ha hb
      simp only [List.map_cons, List.map_nil, List.mem_singleton] at hb
      subst hb
      exact updated_at_not_mem_updateDoc p ha
    have hmatch : docMatches [("_id", Value.oid o)] d = true := by
      rw [docMatches_singleton, hd]
      simp
    have hpre' : ∀ d' ∈ pre, docMatches [("_id", Value.oid o)] d' = false := by
      intro d' hmem
      rw [docMatches_singleton]
      simpa using hpre d' hmem
    have h1 : update_one (pre ++ d :: post) [("_id", Value.oid o)] u
        = (1, pre ++ applySet d u :: post) :=
      update_one_append _ _ _ _ _ hpre' hmatch
    refine ⟨applySet d u, ?_, ?_, ?_, ?_⟩
    · simp [update_furniture, update_furniture_try, hie, ho, ← hu_def, h1]
    · exact applySet_lookup_mem u d _ _ (by simp [hu_def]) hnd
    · intro k v hkv
      exact applySet_lookup_mem u d k v (by simp [hu_def, hkv]) hnd
    · intro k hk hk2
      refine applySet_lookup_not_mem u d k ?_
      rw [hu_def, List.map_append]
      simp [hk, hk2]

/-- Witness for C3: `{price: 2}` against a one-document store (projected to
the application part of the conclusion). -/
theorem update_nonempty_payload_applies_witness :
    ∃ d', update_furniture [[("_id", Value.oid "aabbccddeeff001122334455"),
          ("name", Value.str "Oak"), ("price", Value.num 1)]]
        "aabbccddeeff001122334455"
        ⟨none, none, none, none, none, some 2, none, none, none⟩ 7
      = (Resp.ok [("updated", Value.bool true)], [d']) ∧
      lookupVal d' "updated_at" = some (Value.time 7) ∧
      (∀ k v, (k, v) ∈ updateDoc
          ⟨none, none, none, none, none, some 2, none, none, none⟩ →
        lookupVal d' k = some v) ∧
      (∀ k, k ∉ (updateDoc
          ⟨none, none, none, none, none, some 2, none, none, none⟩).map
            Prod.fst → k ≠ "updated_at" →
        lookupVal d' k = lookupVal [("_id", Value.oid "aabbccddeeff001122334455"),
          ("name", Value.str "Oak"), ("price", Value.num 1)] k) :=
  (update_nonempty_payload_applies [] []
    [("_id", Value.oid "aabbccddeeff001122334455"),
     ("name", Value.str "Oak"), ("price", Value.num 1)]
    "aabbccddeeff001122334455" "aabbccddeeff001122334455"
    ⟨none, none, none, none, none, some 2, none, none, none⟩ 7
    (by decide) (by decide) (by simp) (by decide)).2

/-! ### Substring lemmas for the `q` filter -/

theorem listContainsSub_nil_needle : ∀ l : List Char, listContainsSub [] l = true
  | [] => rfl
  | _ :: rest => by
      simp [listContainsSub, listContainsSub_nil_needle rest]

theorem isPrefixOf_append_of_isPrefixOf (n l l₂ : List Char)
    (h : n.isPrefixOf l = true) : n.isPrefixOf (l ++ l₂) = true := by
  rw [List.isPrefixOf_iff_prefix] at h ⊢
  exact h.trans (l.prefix_append l₂)

theorem listContainsSub_append_right (n l' : List Char)
    (h : listContainsSub n l' = true) :
    ∀ l : List Char, listContainsSub n (l ++ l') = true
  | [] => h
  | c :: rest => by
      simp only [List.cons_append, listContainsSub, Bool.or_eq_true]
      exact Or.inr (listContainsSub_append_right n l' h rest)

theorem listContainsSub_append_left :
    ∀ (l n l₂ : List Char), listContainsSub n l = true →
      listContainsSub n (l ++ l₂) = true
  | [], n, l₂, h => by
      simp only [listContainsSub, List.isEmpty_iff] at h
      subst h
      exact listContainsSub_nil_needle l₂
  | c :: rest, n, l₂, h => by
      simp only [List.cons_append, listContainsSub, Bool.or_eq_true] at h ⊢
      rcases h with h | h
      · exact Or.inl (isPrefixOf_append_of_isPrefixOf n (c :: rest) l₂ h)
      · exact Or.inr (listContainsSub_append_left rest n l₂ h)

theorem strIn_append_left (n a b : String) (h : strIn n a = true) :
    strIn n (a ++ b) = true := by
  unfold strIn at h ⊢
  rw [show (a ++ b).toList = a.toList ++ b.toList from String.data_append a b]
  exact listContainsSub_append_left _ _ _ h

theorem strIn_append_right (n a b : String) (h : strIn n b = true) :
    strIn n (a ++ b) = true := by
  unfold strIn at h ⊢
  rw [show (a ++ b).toList = a.toList ++ b.toList from String.data_append a b]
  exact listContainsSub_append_right _ _ h _

/-- C4 counterexample: for `q = "k b"` the handler keeps a document because
`q` spans the single-space separator the code puts between the lowercased
name and description, while neither the name nor the description alone
contains `q` — refuting the claim's "equivalently … name or description
contains q" reading (and also the separator-less concatenation reading,
since "oakbench" does not contain "k b" either). -/
theorem list_q_spanning_counterexample :
    list_furniture [[("_id", Value.oid "aabbccddeeff001122334455"),
        ("name", Value.str "Oak"), ("description", Value.str "bench")]]
        (some "k b") none none 50
      = [[("name", Value.str "Oak"), ("description", Value.str "bench"),
          ("id", Value.str "aabbccddeeff001122334455")]] ∧
    strIn (pyLower "k b") (pyLower "Oak") = false ∧
    strIn (pyLower "k b") (pyLower "bench") = false ∧
    strIn (pyLower "k b") (pyLower "Oak" ++ pyLower "bench") = false :=
  ⟨by decide, by decide, by decide, by decide⟩

/-- C4 (amended): when `q` is supplied and non-empty, List keeps exactly the
store-filtered documents whose lowercased `name ++ " " ++ description`
(null/missing description read as "") contains the lowercased `q` as a
substring; any document whose name or description alone contains `q` is
kept, but (per the counterexample) not conversely. -/
theorem list_q_substring_filter (q : String) (hq : q ≠ "") :
    (∀ (docs : List Doc) (d : Doc), d ∈ applyQ (some q) docs ↔
      (d ∈ docs ∧ strIn (pyLower q) (searchText d) = true)) ∧
    (∀ (store : Store) (category : Option String) (featured : Option Bool)
        (limit : Nat),
      list_furniture store (some q) category featured limit
        = ((get_documents store (filterDict category featured) limit).filter
            fun d => strIn (pyLower q) (searchText d)).map convertId) ∧
    (∀ d : Doc,
      (strIn (pyLower q) (pyLower (strOrEmpty (lookupVal d "name"))) = true ∨
       strIn (pyLower q) (pyLower (strOrEmpty (lookupVal d "description")))
         = true) →
      strIn (pyLower q) (searchText d) = true) := by
  refine ⟨?_, ?_, ?_⟩
  · intro docs d
    simp [applyQ, hq, List.mem_filter]
  · intro store category featured limit
    simp [list_furniture, applyQ, hq]
  · intro d h
    rcases h with h | h
    · exact strIn_append_left _ _ _ (strIn_append_left _ _ _ h)
    · exact strIn_append_right _ _ _ h

/-- Witness for the amended C4 at `q = "oak"` (pipeline-equation part). -/
theorem list_q_substring_filter_witness :
    list_furniture [[("_id", Value.oid "aabbccddeeff001122334455"),
        ("name", Value.str "Oak"), ("description", Value.str "bench")]]
        (some "oak") none none 50
      = ((get_documents [[("_id", Value.oid "aabbccddeeff001122334455"),
            ("name", Value.str "Oak"), ("description", Value.str "bench")]]
            (filterDict none none) 50).filter
          fun d => strIn (pyLower "oak") (searchText d)).map convertId :=
  (list_q_substring_filter "oak" (by decide)).2.1 _ none none 50

/-! ### Tracing a listed document back to the store -/

theorem mem_list_furniture (store : Store) (q category : Option String)
    (featured : Option Bool) (limit : Nat) (d : Doc)
    (h : d ∈ list_furniture store q category featured limit) :
    ∃ d₀, d₀ ∈ store ∧ docMatches (filterDict category featured) d₀ = true ∧
      d = convertId d₀ := by
  unfold list_furniture at h
  rcases List.mem_map.1 h with ⟨d₀, hd₀, rfl⟩
  have h2 : d₀ ∈ get_documents store (filterDict category featured) limit := by
    cases q with
    | none => exact hd₀
    | some s =>
        by_cases hs : s = ""
        · simpa [applyQ, hs] using hd₀
        · simp only [applyQ] at hd₀
          rw [if_pos hs] at hd₀
          exact (List.mem_filter.1 hd₀).1
  have h3 : d₀ ∈ store.filter (docMatches (filterDict category featured)) :=
    (List.take_sublist limit _).subset (by simpa [get_documents] using h2)
  rcases List.mem_filter.1 h3 with ⟨h4, h5⟩
  exact ⟨d₀, h4, h5, rfl⟩

theorem docMatches_forall (filter : List (String × Value)) (d : Doc)
    (h : docMatches filter d = true) :
    ∀ kv ∈ filter, lookupVal d kv.1 = some kv.2 := by
  simpa [docMatches, List.all_eq_true] using h

/-- C5 counterexample: a `category` query parameter that is present but
equal to the empty string is dropped by line 108's truthiness test, so the
filter sent to the store carries no `category` key although the parameter
is present — refuting the claim's "if and only if the category parameter is
present". -/
theorem filter_drops_empty_category :
    (some "" : Option String).isSome = true ∧
    "category" ∉ (filterDict (some "") none).map Prod.fst :=
  ⟨rfl, by decide⟩

/-- C5 (amended): the exact-match filter List sends the store contains the
key `category` iff the `category` parameter is present *and non-empty*, and
the key `is_featured` iff the `featured` parameter is present (whether true
or false); consequently every returned document carries exactly the
requested non-empty category and, when `featured` is given, exactly the
requested `is_featured` value. -/
theorem list_exact_match_filters :
    (∀ (category : Option String) (featured : Option Bool),
      ("category" ∈ (filterDict category featured).map Prod.fst ↔
        ∃ c, category = some c ∧ c ≠ "") ∧
      ("is_featured" ∈ (filterDict category featured).map Prod.fst ↔
        featured.isSome = true)) ∧
    (∀ (store : Store) (q : Option String) (c : String)
        (featured : Option Bool) (limit : Nat) (d : Doc), c ≠ "" →
      d ∈ list_furniture store q (some c) featured limit →
      lookupVal d "category" = some (Value.str c)) ∧
    (∀ (store : Store) (q category : Option String) (b : Bool)
        (limit : Nat) (d : Doc),
      d ∈ list_furniture store q category (some b) limit →
      lookupVal d "is_featured" = some (Value.bool b)) := by
  refine ⟨?_, ?_, ?_⟩
  · intro category featured
    constructor
    · cases category with
      | none => cases featured <;> simp [filterDict]
      | some c =>
          by_cases hc : c = "" <;> cases featured <;> simp [filterDict, hc]
    · cases category with
      | none => cases featured <;> simp [filterDict]
      | some c =>
          by_cases hc : c = "" <;> cases featured <;> simp [filterDict, hc]
  · intro store q c featured limit d hc hd
    rcases mem_list_furniture store q (some c) featured limit d hd with
      ⟨d₀, _, hm, rfl⟩
    have hmem : ("category", Value.str c) ∈ filterDict (some c) featured := by
      cases featured <;> simp [filterDict, hc]
    have hcat := docMatches_forall _ _ hm ("category", Value.str c) hmem
    rw [convertId_lookup_ne _ _ (by decide) (by decide)]
    exact hcat
  · intro store q category b limit d hd
    rcases mem_list_furniture store q category (some b) limit d hd with
      ⟨d₀, _, hm, rfl⟩
    have hmem : ("is_featured", Value.bool b) ∈ filterDict category (some b) := by
      cases category with
      | none => simp [filterDict]
      | some c => by_cases hc : c = "" <;> simp [filterDict, hc]
    have hfeat := docMatches_forall _ _ hm ("is_featured", Value.bool b) hmem
    rw [convertId_lookup_ne _ _ (by decide) (by decide)]
    exact hfeat

/-- Witness for the amended C5: `category="chairs"` against a one-document
store. -/
theorem list_exact_match_filters_witness :
    lookupVal (convertId [("_id", Value.oid "aabbccddeeff001122334455"),
        ("category", Value.str "chairs"), ("is_featured", Value.bool true)])
      "category" = some (Value.str "chairs") :=
  list_exact_match_filters.2.1
    [[("_id", Value.oid "aabbccddeeff001122334455"),
      ("category", Value.str "chairs"), ("is_featured", Value.bool true)]]
    none "chairs" none 50 _ (by decide) (by decide)

/-- C7: provided every stored document carries an ObjectId `_id` and
dict-unique keys (both invariants of documents the store created), every
document List returns has lost its `_id` key and gained an `id` key holding
the string form of some stored document's ObjectId. -/
theorem list_renames_id (store : Store) (q category : Option String)
    (featured : Option Bool) (limit : Nat)
    (h : ∀ d ∈ store, (∃ o, lookupVal d "_id" = some (Value.oid o)) ∧
      (d.map Prod.fst).Nodup) :
    ∀ d ∈ list_furniture store q category featured limit,
      "_id" ∉ d.map Prod.fst ∧
      ∃ d₀ o, d₀ ∈ store ∧ lookupVal d₀ "_id" = some (Value.oid o) ∧
        lookupVal d "id" = some (Value.str o) := by
  intro d hd
  rcases mem_list_furniture store q category featured limit d hd with
    ⟨d₀, hmem, _, rfl⟩
  rcases h d₀ hmem with ⟨⟨o, ho⟩, hnd⟩
  have hconv : convertId d₀ = setField (popKey d₀ "_id") "id" (Value.str o) := by
    simp [convertId, ho]
  constructor
  · rw [hconv]
    exact keys_setField_subset _ _ _ _ (popKey_not_mem d₀ "_id" hnd) (by decide)
  · exact ⟨d₀, o, hmem, ho, by rw [hconv, lookupVal_setField_self]⟩

/-- Witness for C7 at a one-document store. -/
theorem list_renames_id_witness :
    "_id" ∉ (convertId [("_id", Value.oid "aabbccddeeff001122334455"),
        ("name", Value.str "Oak")]).map Prod.fst ∧
    ∃ d₀ o, d₀ ∈ [[("_id", Value.oid "aabbccddeeff001122334455"),
        ("name", Value.str "Oak")]] ∧
      lookupVal d₀ "_id" = some (Value.oid o) ∧
      lookupVal (convertId [("_id", Value.oid "aabbccddeeff001122334455"),
        ("name", Value.str "Oak")]) "id" = some (Value.str o) :=
  list_renames_id [[("_id", Value.oid "aabbccddeeff001122334455"),
      ("name", Value.str "Oak")]] none none none 50
    (by
      intro d hd
      simp only [List.mem_singleton] at hd
      subst hd
      exact ⟨⟨"aabbccddeeff001122334455", rfl⟩, by decide⟩)
    _ (by decide)

/-! ### Create: schema validation and insertion -/

/-- A JSON value in a request body (objects/arrays beyond the top level are
not needed by the furniture schema). -/
inductive Json where
  /-- a JSON string -/
  | str (s : String)
  /-- a JSON number (int or float) -/
  | num (q : Rat)
  /-- a JSON boolean -/
  | bool (b : Bool)
  /-- JSON null -/
  | null
deriving DecidableEq, Repr

/-- A JSON object body: association list of field name to value. -/
abbrev JsonObj := List (String × Json)

/-- First value under key `k`, if any (object keys are unique). -/
def lookupJson : JsonObj → String → Option Json
  | [], _ => none
  | (k0, v) :: rest, k => if k0 = k then some v else lookupJson rest k

/-- The validated `FurnitureCreate` request model (src/main.py lines
19-28): `name`, `category`, `price` required; `stock` defaults to 0,
`is_featured` to false; the rest optional. -/
structure FurnitureCreate where
  name : String
  description : Option String
  category : String
  material : Option String
  dimensions : Option String
  price : Rat
  stock : Int
  image_url : Option String
  is_featured : Bool
deriving DecidableEq, Repr

/-- A required `str` field: present and a string, else a validation error. -/
def vReqStr : Option Json → Option String
  | some (Json.str s) => some s
  | _ => none

/-- An `Optional[str] = None` field: absent or null reads as `None`; a
string passes; any other type is a validation error. -/
def vOptStr : Option Json → Option (Option String)
  | none => some none
  | some Json.null => some none
  | some (Json.str s) => some (some s)
  | _ => none

/-- A required `float` field: a JSON number (int or float) passes; missing
or non-numeric is a validation error. -/
def vReqNum : Option Json → Option Rat
  | some (Json.num q) => some q
  | _ => none

/-- An `int = d` field: absent reads as the default; an integral number
passes; anything else is a validation error. -/
def vIntD (d : Int) : Option Json → Option Int
  | none => some d
  | some (Json.num q) => if q.den = 1 then some q.num else none
  | _ => none

/-- A `bool = d` field: absent reads as the default; a boolean passes;
anything else is a validation error. -/
def vBoolD (d : Bool) : Option Json → Option Bool
  | none => some d
  | some (Json.bool b) => some b
  | _ => none

/-- Validation of a create request body against `FurnitureCreate`
(src/main.py lines 19-28).  The field kinds mirror the class's annotations;
the pass/fail behaviour of the external schema library is modelled from the
spec (§4.1): fails iff a required field is missing or a supplied field has
the wrong type (numeric-string coercion is not modelled; the claims do not
exercise it). -/
def validate_create (j : JsonObj) : Option FurnitureCreate :=
  match vReqStr (lookupJson j "name"), vOptStr (lookupJson j "description"),
      vReqStr (lookupJson j "category"), vOptStr (lookupJson j "material"),
      vOptStr (lookupJson j "dimensions"), vReqNum (lookupJson j "price"),
      vIntD 0 (lookupJson j "stock"), vOptStr (lookupJson j "image_url"),
      vBoolD false (lookupJson j "is_featured") with
  | some n, some de, some c, some m, some di, some pr, some st, some iu,
      some fe => some ⟨n, de, c, m, di, pr, st, iu, fe⟩
  | _, _, _, _, _, _, _, _, _ => none

/-- `item.model_dump()` for the validated create model: all nine fields,
optional absentees as null. -/
def FurnitureCreate.model_dump (it : FurnitureCreate) : Doc :=
  [("name", Value.str it.name),
   ("description", (it.description.map Value.str).getD Value.null),
   ("category", Value.str it.category),
   ("material", (it.material.map Value.str).getD Value.null),
   ("dimensions", (it.dimensions.map Value.str).getD Value.null),
   ("price", Value.num it.price),
   ("stock", Value.int it.stock),
   ("image_url", (it.image_url.map Value.str).getD Value.null),
   ("is_featured", Value.bool it.is_featured)]

/-- Modelled from the spec: `create_document("furniture", item)` from the
repository's database module (not under src/): per §4.2, "inserts a new
document built from the validated input plus default fields; returns the
newly assigned identifier" — the store appends the document under a fresh
ObjectId `freshId` and returns that id. -/
def create_document (store : Store) (doc : Doc) (freshId : String) :
    String × Store :=
  (freshId, store ++ [("_id", Value.oid freshId) :: doc])

/-- `create_furniture` (src/main.py lines 94-101) on a validated item: the
insert succeeds in the pure store model, so the handler returns `{id}`. -/
def create_furniture (store : Store) (item : FurnitureCreate)
    (freshId : String) : Resp × Store :=
  let r := create_document store item.model_dump freshId
  (Resp.ok [("id", Value.str r.1)], r.2)

/-- C8: a create body carrying exactly the required `name`, `category` and
`price` (of the right types) validates, and the resulting document defaults
`stock` to 0 and `is_featured` to false; dropping any required field, or
supplying one with a wrong type, fails validation. -/
theorem create_requires_and_defaults (n c : String) (pr : Rat) :
    (∃ item, validate_create [("name", Json.str n), ("category", Json.str c),
        ("price", Json.num pr)] = some item ∧
      item.name = n ∧ item.category = c ∧ item.price = pr ∧
      item.stock = 0 ∧ item.is_featured = false ∧
      lookupVal item.model_dump "stock" = some (Value.int 0) ∧
      lookupVal item.model_dump "is_featured" = some (Value.bool false) ∧
      ∀ store freshId, create_furniture store item freshId
        = (Resp.ok [("id", Value.str freshId)],
           store ++ [("_id", Value.oid freshId) :: item.model_dump])) ∧
    validate_create [("category", Json.str c), ("price", Json.num pr)]
      = none ∧
    validate_create [("name", Json.str n), ("price", Json.num pr)] = none ∧
    validate_create [("name", Json.str n), ("category", Json.str c)]
      = none ∧
    validate_create [("name", Json.num 3), ("category", Json.str c),
      ("price", Json.num pr)] = none ∧
    validate_create [("name", Json.str n), ("category", Json.bool true),
      ("price", Json.num pr)] = none ∧
    validate_create [("name", Json.str n), ("category", Json.str c),
      ("price", Json.str "oops")] = none ∧
    validate_create [("name", Json.null), ("category", Json.str c),
      ("price", Json.num pr)] = none := by
  refine ⟨⟨⟨n, none, c, none, none, pr, 0, none, false⟩, ?_, rfl, rfl, rfl,
    rfl, rfl, rfl, rfl, fun store freshId => rfl⟩,
    ?_, ?_, ?_, ?_, ?_, ?_, ?_⟩ <;>
    simp [validate_create, lookupJson, vReqStr, vOptStr, vReqNum, vIntD,
      vBoolD]
